import Mathlib

/-!
Verification of the circuit-synthesis program `csolver.py` (constraint
encoder for reversible-circuit synthesis via a SAT oracle, plus a model
decoder / ASCII circuit renderer).

The program is shallowly embedded: the propositional formula that
`solve_table` hands to the Z3 oracle is modelled as a predicate
`satisfiesFormula` on assignments of the boolean atom families
`c[i][j]`, `v[i][t]`, `n[i]`; the post-oracle control flow, the output
file filter, the CLI dispatch of `main`, and the decoder `draw_circ`
are modelled as total Lean functions (a Python exception is modelled
as `Option.none`).
-/

/-- An assignment of truth values to the three atom families created by
`solve_table` (csolver.py lines 73-90): `c i j` is atom `c_i_j`,
`v i t` is atom `v_i_t`, `n i` is atom `n_i`. -/
structure Assignment where
  c : Nat → Nat → Bool
  v : Nat → Nat → Bool
  n : Nat → Bool

/-- Python list subscript semantics for a list of length `len`:
a non-negative index must be `< len`, a negative index `i` denotes
position `len + i`; out of range raises (modelled as `none`). -/
def pyIndex (len : Nat) (i : Int) : Option Nat :=
  if 0 ≤ i then
    if i < (len : Int) then some i.toNat else none
  else
    if 0 ≤ i + (len : Int) then some (i + (len : Int)).toNat else none

/-- Cell `t`,`k` of the truth table (output columns only, as stored by
`solve_table` after dropping the first csv column). -/
def tget (table : List (List Nat)) (t k : Nat) : Nat :=
  (table.getD t []).getD k 0

/-- `num_output_bits = num_cols = len(truth_table[0])` (csolver.py lines 60, 67). -/
def numOutputBits (table : List (List Nat)) : Nat := (table.headD []).length

/-- Exact value of `math.ceil(math.log2 n)` for `n ≥ 1`: the least `w`
with `n ≤ 2 ^ w` (the floating-point computation of the source is exact
at every realistic table size and is modelled exactly). -/
def ceilLog2 (n : Nat) : Nat :=
  ((List.range (n + 1)).find? (fun w => n ≤ 2 ^ w)).getD 0

/-- `num_input_bits = math.ceil(math.log2(num_rows))` (csolver.py line 70). -/
def numInputBits (table : List (List Nat)) : Nat := ceilLog2 table.length

/-- The accumulated conjunction of the gate-evolution clause
(csolver.py lines 127-130): `temp = True`, then for `count` in
`range(1, i+1)`, `temp = And(temp, Or(v[i-count][inp], Not(c[i][i-count])))`. -/
def propagated (A : Assignment) (i t : Nat) : Bool :=
  (List.range' 1 i).foldl
    (fun temp count => temp && (A.v (i - count) t || !A.c i (i - count))) true

/-- Fuel-driven rendering of the binary digits of `n`, most significant
bit first; `binChars f n` is the digit list of `n` whenever `n ≤ f`
(and `n ≥ 1`).  This embeds Python's `bin(n)[2:]` for positive `n`. -/
def binChars : Nat → Nat → List Bool
  | 0, _ => []
  | _ + 1, 0 => []
  | fuel + 1, n + 1 => binChars fuel ((n + 1) / 2) ++ [decide ((n + 1) % 2 = 1)]

/-- Python `bin(n)[2:]` as a boolean digit list (MSB first); `bin(0)[2:] = "0"`. -/
def pyBin (n : Nat) : List Bool :=
  if n = 0 then [false] else binChars n n

/-- Python `str.zfill(w)`: left-pad with zeros to length `w` (never truncates). -/
def zfill (w : Nat) (l : List Bool) : List Bool :=
  List.replicate (w - l.length) false ++ l

/-- Character `i` of `bin(t)[2:].zfill(nib)` viewed as a boolean:
the literal input bit used by `solve_table` (csolver.py line 136). -/
def inputBit (nib t i : Nat) : Bool :=
  (zfill nib (pyBin t)).getD i false

/-- The right-hand side of the gate-evolution constraint for line `i`
and row `t` (csolver.py lines 126-138): `clause = n[i]`,
`clause = Xor(clause, temp)`, and if `i < num_input_bits` additionally
`clause = Xor(clause, input_val)`. -/
def gateClause (table : List (List Nat)) (A : Assignment) (i t : Nat) : Bool :=
  let base := Bool.xor (A.n i) (propagated A i t)
  if i < numInputBits table then
    Bool.xor base (inputBit (numInputBits table) t i)
  else base

/-- The acyclicity constraints of `solve_table` (csolver.py lines 95-97):
for `i` in `range(num_gates)`, for `j` in `range(i, num_gates)`,
assert `c[i][j] == False`. -/
def acyclicityHolds (ng : Nat) (A : Assignment) : Prop :=
  ∀ i ∈ List.range ng, ∀ j ∈ List.range' i (ng - i), A.c i j = false

/-- The output-pinning constraints of `solve_table` (csolver.py lines
103-111): for `gate` in `range(num_gates - num_output_bits, num_gates)`
(an int range whose start may be negative; `gate` is written here as
`ng - nob + k` over `Int` with `k < nob`) and each row `t`, assert
`v[gate][t] == (truth_table[t][gate - (ng - nob)] != 0)`, where the list
subscript `v[gate]` follows Python semantics (`pyIndex`; a raised
IndexError adds no constraint here and is covered separately). -/
def pinningHolds (table : List (List Nat)) (ng : Nat) (A : Assignment) : Prop :=
  ∀ k ∈ List.range (numOutputBits table), ∀ t ∈ List.range table.length,
    ∀ line ∈ (pyIndex ng ((ng : Int) - (numOutputBits table : Int) + (k : Int))).toList,
      A.v line t = (tget table t k != 0)

/-- The gate-evolution constraints of `solve_table` (csolver.py lines
122-140): for every `i` in `range(num_gates)` and `inp` in
`range(num_rows)`, assert `v[i][inp] == clause`. -/
def evolutionHolds (table : List (List Nat)) (ng : Nat) (A : Assignment) : Prop :=
  ∀ i ∈ List.range ng, ∀ t ∈ List.range table.length,
    A.v i t = gateClause table A i t

/-- An assignment satisfies the complete formula built by `solve_table`
iff it satisfies every constraint of the three families. -/
def satisfiesFormula (table : List (List Nat)) (ng : Nat) (A : Assignment) : Prop :=
  acyclicityHolds ng A ∧ pinningHolds table ng A ∧ evolutionHolds table ng A

instance decAcyclicityHolds (ng : Nat) (A : Assignment) : Decidable (acyclicityHolds ng A) :=
  inferInstanceAs (Decidable (∀ i ∈ List.range ng, ∀ j ∈ List.range' i (ng - i), A.c i j = false))

instance decPinningHolds (table : List (List Nat)) (ng : Nat) (A : Assignment) :
    Decidable (pinningHolds table ng A) :=
  inferInstanceAs (Decidable (∀ k ∈ List.range (numOutputBits table),
    ∀ t ∈ List.range table.length,
    ∀ line ∈ (pyIndex ng ((ng : Int) - (numOutputBits table : Int) + (k : Int))).toList,
      A.v line t = (tget table t k != 0)))

instance decEvolutionHolds (table : List (List Nat)) (ng : Nat) (A : Assignment) :
    Decidable (evolutionHolds table ng A) :=
  inferInstanceAs (Decidable (∀ i ∈ List.range ng, ∀ t ∈ List.range table.length,
    A.v i t = gateClause table A i t))

instance decSatisfiesFormula (table : List (List Nat)) (ng : Nat) (A : Assignment) :
    Decidable (satisfiesFormula table ng A) :=
  inferInstanceAs (Decidable (acyclicityHolds ng A ∧ pinningHolds table ng A ∧
    evolutionHolds table ng A))

/-- A 2-row, 1-output truth table (the table of a plain NOT-free wire). -/
def table1 : List (List Nat) := [[1], [0]]

/-- A 2-row, 2-output truth table whose two output columns agree. -/
def table4 : List (List Nat) := [[1, 1], [0, 0]]

/-- A concrete assignment: all `c` and `n` atoms false, `v 0 0` true and
every other `v` atom false. -/
def A0 : Assignment :=
  { c := fun _ _ => false, v := fun i t => i == 0 && t == 0, n := fun _ => false }

/-! ### Supporting lemmas -/

theorem foldl_and_eq_all {α : Type} (l : List α) (f : α → Bool) (b : Bool) :
    l.foldl (fun acc x => acc && f x) b = (b && l.all f) := by
  induction l generalizing b with
  | nil => simp
  | cons a l ih => simp [List.foldl_cons, ih (b && f a), Bool.and_assoc]

theorem propagated_eq_all (A : Assignment) (i t : Nat) :
    propagated A i t =
      (List.range' 1 i).all (fun count => A.v (i - count) t || !A.c i (i - count)) := by
  simp [propagated, foldl_and_eq_all]

theorem binChars_fuel (n : Nat) : ∀ f g, n ≤ f → n ≤ g → binChars f n = binChars g n := by
  induction n using Nat.strong_induction_on with
  | _ n ih =>
    intro f g hf hg
    match n, f, g with
    | 0, 0, 0 => rfl
    | 0, 0, _ + 1 => rfl
    | 0, _ + 1, 0 => rfl
    | 0, _ + 1, _ + 1 => rfl
    | m + 1, f + 1, g + 1 =>
      simp only [binChars]
      have hhalf : (m + 1) / 2 < m + 1 := Nat.div_lt_self (Nat.succ_pos m) (by omega)
      have h1 : (m + 1) / 2 ≤ f := by omega
      have h2 : (m + 1) / 2 ≤ g := by omega
      rw [ih ((m + 1) / 2) hhalf f g h1 h2]

theorem pyBin_step (t : Nat) (h : 2 ≤ t) :
    pyBin t = pyBin (t / 2) ++ [decide (t % 2 = 1)] := by
  match t, h with
  | m + 2, _ =>
    have h2 : (m + 2) / 2 ≠ 0 := by omega
    simp only [pyBin, if_neg (by omega : ¬ m + 2 = 0), if_neg h2]
    show binChars (m + 2) (m + 2) = _
    simp only [binChars]
    rw [binChars_fuel ((m + 2) / 2) (m + 1) ((m + 2) / 2) (by omega) (by omega)]

theorem pyBin_length_le (t w : Nat) (h1 : 1 ≤ t) (h2 : t < 2 ^ w) :
    (pyBin t).length ≤ w := by
  induction t using Nat.strong_induction_on generalizing w with
  | _ t ih =>
    rcases Nat.lt_or_ge t 2 with hlt | hge
    · interval_cases t
      have hw : 1 ≤ w := by
        by_contra hw
        have hw0 : w = 0 := by omega
        subst hw0; rw [pow_zero] at h2; omega
      simp [pyBin, binChars]; omega
    · have hw1 : 1 ≤ w := by
        by_contra hw
        have hw0 : w = 0 := by omega
        subst hw0; rw [pow_zero] at h2; omega
      rw [pyBin_step t hge]
      have hhalf1 : 1 ≤ t / 2 := by omega
      have hpow : 2 ^ w = 2 ^ (w - 1) * 2 := by
        conv_lhs => rw [show w = (w - 1) + 1 by omega]
        rw [pow_succ]
      have hhalf2 : t / 2 < 2 ^ (w - 1) := by
        rw [Nat.div_lt_iff_lt_mul (by omega : 0 < 2)]
        omega
      have hlen := ih (t / 2) (by omega) (w - 1) hhalf1 hhalf2
      rw [List.length_append]
      simp only [List.length_cons, List.length_nil]
      omega

theorem zfill_pyBin_step (w t : Nat) (hw : 1 ≤ w) (ht : t < 2 ^ (w + 1)) :
    zfill (w + 1) (pyBin t) = zfill w (pyBin (t / 2)) ++ [decide (t % 2 = 1)] := by
  have hrep : List.replicate w (false : Bool) = List.replicate (w - 1) false ++ [false] := by
    conv_lhs => rw [show w = (w - 1) + 1 by omega]
    exact List.replicate_succ' (w - 1) false
  rcases Nat.lt_or_ge t 2 with hlt | hge
  · interval_cases t
    · show zfill (w + 1) (pyBin 0) = zfill w (pyBin 0) ++ [decide (0 % 2 = 1)]
      have h0 : pyBin 0 = [false] := rfl
      rw [h0]
      simp [zfill, hrep, List.append_assoc]
    · show zfill (w + 1) (pyBin 1) = zfill w (pyBin 0) ++ [decide (1 % 2 = 1)]
      have h1 : pyBin 1 = [true] := rfl
      have h0 : pyBin 0 = [false] := rfl
      rw [h1, h0]
      simp [zfill, hrep, List.append_assoc]
  · have hstep := pyBin_step t hge
    have hhalf1 : 1 ≤ t / 2 := by omega
    have hpow : 2 ^ (w + 1) = 2 ^ w * 2 := pow_succ 2 w
    have hhalf2 : t / 2 < 2 ^ w := by
      rw [Nat.div_lt_iff_lt_mul (by omega : 0 < 2)]
      omega
    have hlen : (pyBin (t / 2)).length ≤ w := pyBin_length_le (t / 2) w hhalf1 hhalf2
    rw [hstep]
    simp only [zfill, List.length_append, List.length_cons, List.length_nil]
    rw [show w + 1 - ((pyBin (t / 2)).length + (0 + 1)) = w - (pyBin (t / 2)).length by omega]
    rw [List.append_assoc]

theorem zfill_pyBin_eq_map : ∀ (w : Nat), 1 ≤ w → ∀ t, t < 2 ^ w →
    zfill w (pyBin t) = (List.range w).map (fun i => t.testBit (w - 1 - i)) := by
  intro w
  induction w with
  | zero => intro h; omega
  | succ w ih =>
    intro _ t ht
    rcases Nat.eq_zero_or_pos w with rfl | hw1
    · interval_cases t <;> decide
    · rw [zfill_pyBin_step w t hw1 ht]
      have hpow : 2 ^ (w + 1) = 2 ^ w * 2 := pow_succ 2 w
      have hhalf2 : t / 2 < 2 ^ w := by
        rw [Nat.div_lt_iff_lt_mul (by omega : 0 < 2)]
        omega
      rw [ih hw1 (t / 2) hhalf2]
      rw [List.range_succ, List.map_append]
      congr 1
      · apply List.map_congr_left
        intro i hi
        rw [List.mem_range] at hi
        rw [show w + 1 - 1 - i = (w - 1 - i) + 1 by omega]
        rw [Nat.testBit_div_two]
      · simp [Nat.testBit_zero]

theorem inputBit_eq_testBit (nib t i : Nat) (hi : i < nib) (ht : t < 2 ^ nib) :
    inputBit nib t i = t.testBit (nib - 1 - i) := by
  have h1 : 1 ≤ nib := by omega
  rw [inputBit, zfill_pyBin_eq_map nib h1 t ht]
  rw [List.getD_eq_getElem?_getD, List.getElem?_map, List.getElem?_range hi]
  rfl

theorem le_two_pow_ceilLog2 (n : Nat) : n ≤ 2 ^ ceilLog2 n := by
  have hex : ((List.range (n + 1)).find? (fun w => n ≤ 2 ^ w)).isSome := by
    apply List.find?_isSome.mpr
    exact ⟨n, List.mem_range.mpr (by omega), by simpa using Nat.le_of_lt (Nat.lt_two_pow n)⟩
  rcases ho : (List.range (n + 1)).find? (fun w => n ≤ 2 ^ w) with _ | w
  · rw [ho] at hex; simp at hex
  · have hp := List.find?_some ho
    simp only [decide_eq_true_eq] at hp
    unfold ceilLog2
    rw [ho]
    simpa using hp

/-! ### Claims C1-C4: the encoder's constraint families -/

/-- C1: for every line `i < num_gates` and every row `t`, the formula
built by `solve_table` asserts
`v[i][t] = n[i] XOR (AND over count=1..i of (v[i-count][t] OR NOT c[i][i-count]))`
(the conjunction over the empty range, at `i = 0`, being true), with the
right-hand side additionally XORed, when `i < num_input_bits`, with bit
`i` of row `t`'s binary index zero-padded to `num_input_bits` bits, bit
0 being the most significant bit. -/
theorem C1_gate_evolution (table : List (List Nat)) (ng : Nat) (A : Assignment)
    (h : satisfiesFormula table ng A) (i t : Nat) (hi : i < ng) (ht : t < table.length) :
    A.v i t =
      Bool.xor (Bool.xor (A.n i)
          ((List.range' 1 i).all (fun count => A.v (i - count) t || !A.c i (i - count))))
        (if i < numInputBits table then t.testBit (numInputBits table - 1 - i)
         else false) := by
  have hevo := h.2.2 i (List.mem_range.mpr hi) t (List.mem_range.mpr ht)
  rw [hevo]
  simp only [gateClause]
  rcases Nat.lt_or_ge i (numInputBits table) with hlt | hge
  · rw [if_pos hlt, if_pos hlt, propagated_eq_all]
    congr 1
    have htpow : t < 2 ^ numInputBits table :=
      Nat.lt_of_lt_of_le ht (le_two_pow_ceilLog2 table.length)
    exact inputBit_eq_testBit _ t i hlt htpow
  · rw [if_neg (by omega), if_neg (by omega), propagated_eq_all, Bool.xor_false]

theorem C1_gate_evolution_witness :
    satisfiesFormula table1 1 A0 ∧
      A0.v 0 1 =
        Bool.xor (Bool.xor (A0.n 0)
            ((List.range' 1 0).all (fun count => A0.v (0 - count) 1 || !A0.c 0 (0 - count))))
          (if 0 < numInputBits table1 then Nat.testBit 1 (numInputBits table1 - 1 - 0)
           else false) :=
  ⟨by decide, C1_gate_evolution table1 1 A0 (by decide) 0 1 (by decide) (by decide)⟩


/-- C2: for every pair `i ≤ j < num_gates`, the formula built by
`solve_table` asserts `c[i][j] = false`; hence no satisfying assignment
has `c[i][j]` true for any `j ≥ i`, and the control relation of every
satisfying assignment is strictly lower-triangular. -/
theorem C2_acyclicity (table : List (List Nat)) (ng : Nat) (A : Assignment)
    (h : satisfiesFormula table ng A) (i j : Nat)
    (hi : i < ng) (hij : i ≤ j) (hj : j < ng) : A.c i j = false := by
  apply h.1 i (List.mem_range.mpr hi) j
  rw [List.mem_range']
  exact ⟨j - i, by omega, by omega⟩

theorem C2_acyclicity_witness :
    satisfiesFormula table1 1 A0 ∧ A0.c 0 0 = false :=
  ⟨by decide, C2_acyclicity table1 1 A0 (by decide) 0 0 (by decide) (by decide) (by decide)⟩

theorem pyIndex_of_lt (len v : Nat) (h : v < len) : pyIndex len (v : Int) = some v := by
  unfold pyIndex
  rw [if_pos (by exact_mod_cast Nat.zero_le v)]
  rw [if_pos (by exact_mod_cast h)]
  simp

/-- C3: for each of the last `num_output_bits` lines (`gate` running from
`num_gates - num_output_bits` to `num_gates - 1`) and each row `t`, the
formula built by `solve_table` asserts that `v[gate][t]` equals the truth
table's stored bit for row `t` and output column
`gate - (num_gates - num_output_bits)`: false when the stored bit is 0
and true otherwise. -/
theorem C3_output_pinning (table : List (List Nat)) (ng : Nat) (A : Assignment)
    (h : satisfiesFormula table ng A) (hnob : numOutputBits table ≤ ng)
    (gate t : Nat) (hg1 : ng - numOutputBits table ≤ gate) (hg2 : gate < ng)
    (ht : t < table.length) :
    A.v gate t = (tget table t (gate - (ng - numOutputBits table)) != 0) := by
  have hk : gate - (ng - numOutputBits table) < numOutputBits table := by omega
  have hcast : (ng : Int) - (numOutputBits table : Int) +
      ((gate - (ng - numOutputBits table) : Nat) : Int) = (gate : Int) := by
    omega
  have hpy : pyIndex ng ((ng : Int) - (numOutputBits table : Int) +
      ((gate - (ng - numOutputBits table) : Nat) : Int)) = some gate := by
    rw [hcast]
    exact pyIndex_of_lt ng gate hg2
  apply h.2.1 (gate - (ng - numOutputBits table)) (List.mem_range.mpr hk) t
    (List.mem_range.mpr ht) gate
  rw [hpy]
  simp

theorem C3_output_pinning_witness :
    satisfiesFormula table1 1 A0 ∧ numOutputBits table1 ≤ 1 ∧
      A0.v 0 0 = (tget table1 0 (0 - (1 - numOutputBits table1)) != 0) :=
  ⟨by decide, by decide,
    C3_output_pinning table1 1 A0 (by decide) (by decide) 0 0 (by decide) (by decide)
      (by decide)⟩

/-- C4: the claim demands that a request with `num_gates < num_output_bits`
fail as a configuration error before the oracle is invoked.  The code has
no such check: with `num_gates = 1` and the 2-output table `table4`
(`num_output_bits = 2 > 1`), the loop
`for gate in range(num_gates - num_output_bits, num_gates)` runs over the
negative gate index `-1`, which Python list subscripting silently wraps
to line `0`; the resulting formula is well-defined and is handed to the
oracle, and it is even satisfiable (witness `A0`), so `solve_table`
reports success instead of failing. -/
theorem C4_no_rejection :
    numOutputBits table4 = 2 ∧ 1 < numOutputBits table4 ∧
      pyIndex 1 ((1 : Int) - (numOutputBits table4 : Int) + ((0 : Nat) : Int)) = some 0 ∧
      satisfiesFormula table4 1 A0 :=
  ⟨rfl, by decide, by decide, by decide⟩

/-! ### The atom namespace, the SAT model, and the synthesis result file -/

/-- The three atom families declared by `solve_table` (csolver.py lines
73-90): `c i j` for `Bool("c_i_j")`, `v i t` for `Bool("v_i_t")`, `n i`
for `Bool("n_i")`. -/
inductive Atom where
  | c (i j : Nat)
  | v (i t : Nat)
  | n (i : Nat)
deriving DecidableEq

/-- Fuel-driven decimal digits of `n` (most significant first);
`decChars f n` is the digit list of `n` whenever `n ≤ f` and `n ≥ 1`. -/
def decChars : Nat → Nat → List Char
  | 0, _ => []
  | _ + 1, 0 => []
  | fuel + 1, n + 1 => decChars fuel ((n + 1) / 10) ++ [Char.ofNat (48 + (n + 1) % 10)]

/-- Python `str(n)` for a natural number `n`. -/
def natChars (n : Nat) : List Char :=
  if n = 0 then ['0'] else decChars n n

/-- The name of an atom, as the character list of the Python string the
source builds ("c_"+str(i)+"_"+str(j), "v_"+str(i)+"_"+str(j), "n_"+str(i)). -/
def atomChars : Atom → List Char
  | .c i j => 'c' :: '_' :: (natChars i ++ '_' :: natChars j)
  | .v i t => 'v' :: '_' :: (natChars i ++ '_' :: natChars t)
  | .n i => 'n' :: '_' :: natChars i

/-- Whether the atom belongs to the `c` or `n` family. -/
def isCN : Atom → Bool
  | .c _ _ => true
  | .n _ => true
  | .v _ _ => false

/-- The lines written to the synthesis result file after a SAT result
(csolver.py lines 150-152): for each declaration `d` of the model, the
name `str(d)` is written iff its value is `True` and `"v"` does not
occur in the name.  The oracle's model is represented as an association
list of atoms and values in iteration order. -/
def fileLines (m : List (Atom × Bool)) : List (List Char) :=
  (m.filter (fun e => e.2 && !((atomChars e.1).contains 'v'))).map
    (fun e => atomChars e.1)

theorem decChars_ne_v : ∀ f n, ∀ ch ∈ decChars f n, ch ≠ 'v' := by
  intro f
  induction f with
  | zero => intro n ch h; simp [decChars] at h
  | succ f ih =>
    intro n ch h
    match n with
    | 0 => simp [decChars] at h
    | m + 1 =>
      simp only [decChars, List.mem_append, List.mem_cons, List.not_mem_nil] at h
      rcases h with h | h
      · exact ih ((m + 1) / 10) ch h
      · rcases h with h | h
        · subst h
          have hr : (m + 1) % 10 < 10 := Nat.mod_lt _ (by omega)
          generalize hg : (m + 1) % 10 = r at hr
          interval_cases r <;> decide
        · simp at h

theorem natChars_ne_v (n : Nat) : ∀ ch ∈ natChars n, ch ≠ 'v' := by
  intro ch h
  unfold natChars at h
  split at h
  · simp at h; subst h; decide
  · exact decChars_ne_v n n ch h

theorem atomChars_contains_v (a : Atom) :
    (atomChars a).contains 'v' = !isCN a := by
  cases a with
  | c i j =>
    simp only [atomChars, isCN, Bool.not_true]
    rw [List.contains_eq_any_beq]
    simp
    exact ⟨fun x hx he => natChars_ne_v i x hx he.symm,
           fun x hx he => natChars_ne_v j x hx he.symm⟩
  | v i t =>
    simp only [atomChars, isCN, Bool.not_false]
    rw [List.contains_eq_any_beq]
    simp
  | n i =>
    simp only [atomChars, isCN, Bool.not_true]
    rw [List.contains_eq_any_beq]
    simp
    exact fun x hx he => natChars_ne_v i x hx he.symm

/-- C6: after a SAT result, the synthesis result file written by
`solve_table` consists of exactly the model's true atoms of the `c` and
`n` families, one atom name per line, in model order: the source's
filter "value is True and the name does not contain the letter v" is
extensionally the family filter, so no `v`-family atom and no false
atom is ever written. -/
theorem C6_file_filter (m : List (Atom × Bool)) :
    fileLines m = (m.filter (fun e => e.2 && isCN e.1)).map (fun e => atomChars e.1) := by
  unfold fileLines
  congr 1
  apply List.filter_congr
  intro e _
  rw [atomChars_contains_v e.1, Bool.not_not]

/-! ### Post-oracle control flow of solve_table and main (claim C5) -/

/-- The oracle's answer to `s.check()`: `sat` with a model, or `unsat`. -/
inductive OracleResult where
  | sat (m : List (Atom × Bool))
  | unsat

/-- The value returned by `solve_table` after `s.check()` (csolver.py
lines 145-158): `(True, num_input_bits, num_output_bits)` on sat,
`(False, 0, 0)` on unsat.  Both branches return normally; no exception
is raised (the function is total). -/
def solveTableReturn (nib nob : Nat) : OracleResult → Bool × Nat × Nat
  | .sat _ => (true, nib, nob)
  | .unsat => (false, 0, 0)

/-- The content written to the output file by `solve_table`
(csolver.py lines 148-153): the file is opened and written only in the
sat branch; on unsat nothing is written (`none`). -/
def solveTableFile : OracleResult → Option (List (List Char))
  | .sat m => some (fileLines m)
  | .unsat => none

/-- Whether `main` runs the decoder stage (csolver.py lines 287-289):
`draw_circ` is invoked iff the first component of `solve_table`'s
return value is true. -/
def mainInvokesDrawCirc (ret : Bool × Nat × Nat) : Bool := ret.1

/-- C5: on an unsatisfiable oracle answer, `solve_table` returns the
first-class tuple `(False, 0, 0)` (no exception: the embedding is a
total function), writes nothing to the output file, and `main` does not
run the decoder stage `draw_circ`. -/
theorem C5_unsat_result (nib nob : Nat) :
    solveTableReturn nib nob OracleResult.unsat = (false, 0, 0) ∧
      solveTableFile OracleResult.unsat = none ∧
      mainInvokesDrawCirc (solveTableReturn nib nob OracleResult.unsat) = false :=
  ⟨rfl, rfl, rfl⟩

/-! ### The model decoder / circuit renderer draw_circ (claims C7, C8, C10) -/

/-- Python `s.split(sep)` on character lists. -/
def pySplit (sep : Char) : List Char → List (List Char)
  | [] => [[]]
  | ch :: rest =>
    if ch = sep then [] :: pySplit sep rest
    else
      match pySplit sep rest with
      | [] => [[ch]]
      | g :: gs => (ch :: g) :: gs

/-- Python `int(s)` on a string of decimal digits. -/
def parseNat (l : List Char) : Nat :=
  l.foldl (fun acc ch => acc * 10 + (ch.toNat - 48)) 0

/-- Python string `<=` (lexicographic comparison by code point). -/
def lexLe : List Char → List Char → Bool
  | [], _ => true
  | _ :: _, [] => false
  | a :: as, b :: bs =>
    if a.toNat < b.toNat then true
    else if b.toNat < a.toNat then false
    else lexLe as bs

/-- One insertion step of a stable insertion sort. -/
def insertSorted (x : List Char) : List (List Char) → List (List Char)
  | [] => [x]
  | y :: ys => if lexLe x y then x :: y :: ys else y :: insertSorted x ys

/-- Python `list.sort()` on a list of strings: a stable sort by the
total lexicographic order (any stable sort computes the same list). -/
def pySort (l : List (List Char)) : List (List Char) :=
  l.foldr insertSorted []

/-- Python `max(l)` for a list of naturals: raises on the empty list
(modelled as `none`), csolver.py line 176. -/
def pyMax : List Nat → Option Nat
  | [] => none
  | x :: xs => some (xs.foldl max x)

/-- `int(line.split('_')[1])`: the first numeric field of an atom name
(the line index of an `n` atom, the gate index of a `c` atom). -/
def parseIdx1 (l : List Char) : Nat := parseNat ((pySplit '_' l).getD 1 [])

/-- `int(line.split('_')[2])`: the second numeric field of a `c` atom
name (the controlling line index). -/
def parseIdx2 (l : List Char) : Nat := parseNat ((pySplit '_' l).getD 2 [])

/-- Read cell `(r, c)` of the grid. -/
def getCell (g : List (List Char)) (r c : Nat) : Char := (g.getD r []).getD c ' '

/-- Assign cell `(r, c)` of the grid (all uses are in range, matching
Python's in-range list assignment). -/
def setCell (g : List (List Char)) (r c : Nat) (ch : Char) : List (List Char) :=
  g.set r ((g.getD r []).set c ch)

/-- `o_above` (csolver.py lines 262-266): is there a control dot in
column `i` strictly above row `j`? -/
def o_above (g : List (List Char)) (j i : Nat) : Bool :=
  (List.range j).any (fun y => getCell g y i == 'o')

/-- The role tag written at the start of a rendered line. -/
def inputTag : List Char := ['|', 'i', '>', ' ']

/-- Output-line role tag. -/
def outputTag : List Char := ['|', 'o', '>', ' ']

/-- Ancilla-line role tag. -/
def ancillaTag : List Char := ['|', 'a', '>', ' ']

/-- The role label of line `i` in the rendered circuit (csolver.py lines
208-215): `|i>` if `i < num_in`, else `|o>` if `i >= n - num_out`, else
`|a>`.  (`n - num_out` is truncated natural subtraction; for
`num_out > n` Python compares against a negative number and every `i`
passes, which coincides with the truncation to 0.) -/
def lineLabel (num_in num_out n i : Nat) : List Char :=
  if i < num_in then inputTag
  else if n - num_out ≤ i then outputTag
  else ancillaTag

/-- The outcome of a successful `draw_circ` run: the grid dimension `n`
and the rendered circuit lines (role tag followed by the dashed cells). -/
structure DrawResult where
  dim : Nat
  rows : List (List Char)
deriving DecidableEq

/-- `parsed_all` (csolver.py lines 173-174): the first numeric field of
every (sorted) line of the atom file. -/
def parsedAll (fileData : List (List Char)) : List Nat :=
  (pySort fileData).map parseIdx1

/-- The decoder `draw_circ` (csolver.py lines 163-221), up to and
including the rendered circuit grid; a Python exception (indexing an
empty line, `max` of an empty sequence, or a control-dot row index out
of range) is modelled as `none`.  The trailing gate-count histogram is
not modelled; no claim refers to its content. -/
def draw_circ (fileData : List (List Char)) (num_in num_out : Nat) : Option DrawResult :=
  let data := pySort fileData
  if data.any List.isEmpty then none
  else
    let nots := data.filter (fun i => i.headD ' ' == 'n')
    let cs := data.filter (fun i => i.headD ' ' == 'c')
    match pyMax (data.map parseIdx1) with
    | none => none
    | some mx =>
      let n := mx + 1
      if cs.any (fun l => n ≤ parseIdx2 l) then none
      else
        let circ0 : List (List Char) := List.replicate n (List.replicate n '-')
        let circ1 := nots.foldl (fun g l => setCell g (parseIdx1 l) 0 'X') circ0
        let circ2 := (List.range n).foldl (fun g i =>
          (List.range n).foldl (fun g2 j => if i == j then setCell g2 i j 'X' else g2) g) circ1
        let circ3 := cs.foldl (fun g l => setCell g (parseIdx2 l) (parseIdx1 l) 'o') circ2
        let circ4 := (List.range' 1 (n - 1)).foldl (fun g i =>
          (List.range' 1 (i - 1)).foldl (fun g2 j =>
            if (getCell g2 j i == '-') && o_above g2 j i then setCell g2 j i '|'
            else g2) g) circ3
        some { dim := n,
               rows := (List.range n).map (fun i =>
                 lineLabel num_in num_out n i ++
                   ((circ4.getD i []).map (fun ch => ['-', ch, '-'])).flatten) }

/-- C10: on an atom file with no lines, `draw_circ` raises (the `max` of
the empty sequence of parsed indices, csolver.py line 176, modelled as
`none`): it renders neither a circuit nor a gate histogram and never
produces a degenerate zero-line drawing. -/
theorem C10_empty_atom_file (num_in num_out : Nat) :
    draw_circ [] num_in num_out = none := rfl

/-- C7 counterexample: the claim asserts that `draw_circ` detects
`n ≠ num_gates` and surfaces a malformed-model error.  For an original
request of `num_gates = 2`, feed `draw_circ` an atom file whose only
line is `n_0`: the reconstructed dimension is `1 ≠ 2`, yet `draw_circ`
completes normally and renders a 1-line circuit — no mismatch is
detected (the function does not even receive `num_gates`). -/
theorem C7_counterexample :
    draw_circ [['n', '_', '0']] 1 1 =
      some { dim := 1, rows := [['|', 'i', '>', ' ', '-', 'X', '-']] } ∧
      (1 : Nat) ≠ 2 :=
  ⟨by decide, by decide⟩

/-- C7 amended: whenever `draw_circ` returns a rendering, its grid
dimension is exactly `max(parsed_all) + 1`, the maximum line index
referenced in the atom file plus one; the requested `num_gates` plays no
part (it is not even an argument of `draw_circ`), so no dimension
mismatch is ever detected or surfaced. -/
theorem C7_dim_is_max_plus_one (fileData : List (List Char)) (num_in num_out : Nat)
    (r : DrawResult) (h : draw_circ fileData num_in num_out = some r) :
    ∃ mx, pyMax (parsedAll fileData) = some mx ∧ r.dim = mx + 1 := by
  unfold parsedAll
  simp only [draw_circ] at h
  split at h
  · exact absurd h (by simp)
  · split at h
    next heq => exact absurd h (by simp)
    next mx heq =>
      split at h
      · exact absurd h (by simp)
      · refine ⟨mx, heq, ?_⟩
        have hr := Option.some.inj h
        rw [← hr]

theorem C7_dim_is_max_plus_one_witness :
    ∃ mx, pyMax (parsedAll [['c', '_', '1', '_', '0']]) = some mx ∧
      (DrawResult.mk 2 [['|', 'i', '>', ' ', '-', 'X', '-', '-', 'o', '-'],
                        ['|', 'o', '>', ' ', '-', '-', '-', '-', 'X', '-']]).dim = mx + 1 :=
  C7_dim_is_max_plus_one [['c', '_', '1', '_', '0']] 1 1 _ (by decide)

/-- C8 counterexample: the claim asserts that in the overlap case
(`num_input_bits + num_output_bits > n`, a line satisfying both the
input predicate and the output predicate) the output label wins.  At
`num_in = num_out = n = 1`, line 0 satisfies both predicates, and the
rendered label is the input tag, not the output tag. -/
theorem C8_counterexample :
    1 + 1 > 1 ∧ 0 < 1 ∧ 1 - 1 ≤ 0 ∧ lineLabel 1 1 1 0 ≠ outputTag := by
  decide

/-- C8 amended: in the overlap the INPUT label takes precedence: the
renderer tests `i < num_in` first (csolver.py line 210), so a line
satisfying both predicates is labeled `|i>`. -/
theorem C8_input_label_precedence (num_in num_out n i : Nat)
    (h1 : i < num_in) (h2 : n - num_out ≤ i) :
    lineLabel num_in num_out n i = inputTag := by
  unfold lineLabel
  rw [if_pos h1]

theorem C8_input_label_precedence_witness :
    (0 < 1 ∧ 1 - 1 ≤ 0) ∧ lineLabel 1 1 1 0 = inputTag :=
  ⟨⟨by decide, by decide⟩, C8_input_label_precedence 1 1 1 0 (by decide) (by decide)⟩

/-! ### CLI dispatch of main (claim C9) -/

/-- Diagnostic printed on a wrong argument count (csolver.py line 295). -/
def argcMsg : String := "Please input the correct number of arguments."

/-- Diagnostic printed when the input file does not exist (csolver.py line 293). -/
def noFileMsg : String := "That file does not exist."

/-- Diagnostic printed when the input file is not a `.csv` (csolver.py line 291). -/
def extMsg : String := "Please input a .csv file."

/-- Python `filename.endswith('.csv')`. -/
def endsWithCsv (filename : List Char) : Bool :=
  List.isSuffixOf ['.', 'c', 's', 'v'] filename

/-- The observable outcome of one run of `main`. -/
structure MainOutcome where
  coreInvoked : Bool
  message : Option String
  exitCode : Nat
  fileWritten : Bool
deriving DecidableEq

/-- The dispatch of `main` (csolver.py lines 269-295): `argv` is the
full argument vector including the script name (`len(sys.argv) == 4`),
`fileExists` models `os.path.isfile(filename)`, and `oracleSat` whether
the oracle reports sat (in which case `solve_table` and then
`draw_circ` write the output file).  The program never calls
`sys.exit`, so every branch finishes with process exit status 0. -/
def pyMain (argv : List (List Char)) (fileExists oracleSat : Bool) : MainOutcome :=
  if argv.length = 4 then
    if fileExists then
      if endsWithCsv (argv.getD 1 []) then
        { coreInvoked := true, message := none, exitCode := 0, fileWritten := oracleSat }
      else
        { coreInvoked := false, message := some extMsg, exitCode := 0, fileWritten := false }
    else
      { coreInvoked := false, message := some noFileMsg, exitCode := 0, fileWritten := false }
  else
    { coreInvoked := false, message := some argcMsg, exitCode := 0, fileWritten := false }

/-- C9 counterexample: the claim demands a non-zero outcome for each of
the three CLI error cases, but `main` never sets an exit status: with a
wrong argument count the diagnostic is printed and the process still
ends with exit status 0, not non-zero. -/
theorem C9_counterexample :
    (pyMain [] false false).message = some argcMsg ∧
      (pyMain [] false false).coreInvoked = false ∧
      (pyMain [] false false).exitCode = 0 := by
  decide

/-- C9 amended: each of the three CLI error cases (wrong argument count,
nonexistent input file, wrong extension) produces its own diagnostic
message — the three messages are pairwise distinct — and neither
`solve_table` nor `draw_circ` runs and no output file is written; the
process exit status however is 0 in every case, not non-zero. -/
theorem C9_cli_errors (argv : List (List Char)) (fileExists oracleSat : Bool)
    (h : ¬(argv.length = 4 ∧ fileExists = true ∧ endsWithCsv (argv.getD 1 []) = true)) :
    (pyMain argv fileExists oracleSat).coreInvoked = false ∧
      (pyMain argv fileExists oracleSat).fileWritten = false ∧
      (pyMain argv fileExists oracleSat).exitCode = 0 ∧
      (pyMain argv fileExists oracleSat).message =
        some (if argv.length ≠ 4 then argcMsg
              else if fileExists = false then noFileMsg
              else extMsg) ∧
      argcMsg ≠ noFileMsg ∧ argcMsg ≠ extMsg ∧ noFileMsg ≠ extMsg := by
  unfold pyMain
  by_cases h4 : argv.length = 4
  · by_cases hf : fileExists = true
    · by_cases hc : endsWithCsv (argv.getD 1 []) = true
      · exact absurd ⟨h4, hf, hc⟩ h
      · rw [if_pos h4, if_pos hf, if_neg hc]
        refine ⟨rfl, rfl, rfl, ?_, by decide, by decide, by decide⟩
        rw [if_neg (by omega), if_neg (by simp [hf])]
    · rw [if_pos h4, if_neg hf]
      refine ⟨rfl, rfl, rfl, ?_, by decide, by decide, by decide⟩
      rw [if_neg (by omega), if_pos (by simpa using hf)]
  · rw [if_neg h4]
    refine ⟨rfl, rfl, rfl, ?_, by decide, by decide, by decide⟩
    rw [if_pos h4]

theorem C9_cli_errors_witness :
    ¬(([] : List (List Char)).length = 4 ∧ false = true ∧
        endsWithCsv (([] : List (List Char)).getD 1 []) = true) ∧
      (pyMain [] false false).coreInvoked = false ∧
      (pyMain [] false false).fileWritten = false ∧
      (pyMain [] false false).exitCode = 0 ∧
      (pyMain [] false false).message =
        some (if ([] : List (List Char)).length ≠ 4 then argcMsg
              else if false = false then noFileMsg
              else extMsg) ∧
      argcMsg ≠ noFileMsg ∧ argcMsg ≠ extMsg ∧ noFileMsg ≠ extMsg :=
  ⟨by decide, C9_cli_errors [] false false (by decide)⟩
